import Mathlib

/-!
Verification development for the `pgm` process-group supervisor.

The repository ships only a packaging stub (`setup.py`); the group lifecycle
engine described by the specification (Backend Adapter, Process Descriptor
Store, Group State Tracker, Lifecycle Controller, Status Reporter) is not
present as source. Those components are therefore modelled here from the
specification text, while `setup.py` is embedded from the source directly.
-/

namespace Pgm

/-- Modelled from the spec: a Process Descriptor (spec §3) — the lifecycle
engine is missing from the repository, which is a packaging stub only.
Identity is the `name` (unique within its Group); attributes are the
shell start command, an optional stop signal, and a startup-order index. -/
structure ProcDesc where
  name : String
  command : String
  stopSignal : Option String
  order : Nat
deriving Repr, DecidableEq

/-- Modelled from the spec: a Group (spec §3) — a unique name plus an
ordered sequence of Process Descriptors. -/
structure Group where
  name : String
  procs : List ProcDesc
deriving Repr, DecidableEq

/-- Order-index comparison used for startup sequencing (spec §4.4):
ascending order index. -/
def procLE (p q : ProcDesc) : Prop := p.order ≤ q.order

instance : DecidableRel procLE := fun p q => Nat.decLe p.order q.order

instance : IsTotal ProcDesc procLE := ⟨fun p q => Nat.le_total p.order q.order⟩

instance : IsTrans ProcDesc procLE := ⟨fun _ _ _ h h2 => Nat.le_trans h h2⟩

/-- Modelled from the spec: the startup ordering of a descriptor list
(spec §4.4) — ascending order-index order with a stable tie-break by
declaration order. Insertion sort is stable, matching the required
tie-break. -/
def sortByOrder (ps : List ProcDesc) : List ProcDesc :=
  List.insertionSort procLE ps

/-- Modelled from the spec: target set of `start` (spec §4.4) — all
descriptors in ascending order-index order when no process name is given,
otherwise only the named one. -/
def startTargets (g : Group) (pname : Option String) : List ProcDesc :=
  match pname with
  | none => sortByOrder g.procs
  | some n => (sortByOrder g.procs).filter (fun p => p.name == n)

/-- Modelled from the spec: target set of `stop` (spec §4.4) — the same
target set as `start`, in reversed (descending order-index) order. -/
def stopTargets (g : Group) (pname : Option String) : List ProcDesc :=
  (startTargets g pname).reverse

/-- Per-process status produced by reconciliation (spec §4.3). -/
inductive PStatus where
  | running
  | stopped
deriving Repr, DecidableEq

/-- Modelled from the spec: the Group State Tracker's per-process
reconciliation (spec §4.3) — a window with the descriptor's name present
in the snapshot means `running`, absence means `stopped`. -/
def procStatus (snapshot : List String) (p : ProcDesc) : PStatus :=
  if p.name ∈ snapshot then .running else .stopped

/-- Modelled from the spec: the `status` report (spec §4.3, §6) — one
record per declared descriptor, computed from a single backend snapshot. -/
def statusReport (g : Group) (snapshot : List String) : List (String × PStatus) :=
  g.procs.map (fun p => (p.name, procStatus snapshot p))

/-- Modelled from the spec: whether a window name matches no current
Process Descriptor of the group (spec §4.3 tie-break). -/
def isOrphan (g : Group) (w : String) : Bool :=
  !(g.procs.any (fun p => p.name == w))

/-- Modelled from the spec: the orphaned windows of a snapshot
(spec §4.3): live windows with no matching descriptor. -/
def orphanWindows (g : Group) (snapshot : List String) : List String :=
  snapshot.filter (fun w => isOrphan g w)

/-- Aggregate group state (spec §4.5): all running / mixed / all stopped. -/
inductive Aggregate where
  | allRunning
  | mixed
  | allStopped
deriving Repr, DecidableEq

/-- Modelled from the spec: the aggregate group state (spec §4.5),
computed from the declared descriptors only, so orphaned windows are
excluded by construction. -/
def aggregate (g : Group) (snapshot : List String) : Aggregate :=
  if g.procs.all (fun p => procStatus snapshot p == .running) then .allRunning
  else if g.procs.all (fun p => procStatus snapshot p == .stopped) then .allStopped
  else .mixed

/-- Backend Adapter actions issued by the Lifecycle Controller
(spec §4.1): every call is recorded in the operation trace. -/
inductive Action where
  | ensureSession (session : String)
  | createWindow (session window command : String)
  | sendSignal (session window signal : String)
  | pollWindow (session window : String)
  | killWindow (session window : String)
deriving Repr, DecidableEq

/-- Backend error taxonomy (spec §7). -/
inductive BackendErr where
  | backendUnavailable
  | duplicateWindow
  | windowNotFound
deriving Repr, DecidableEq

/-- Outcome reported for one `start` target (spec §4.4, §7). -/
inductive StartResult where
  | started
  | alreadyRunning
  | failed
  | notAttempted
deriving Repr, DecidableEq

/-- Outcome reported for one `stop` target (spec §4.4, §7). -/
inductive StopResult where
  | wasStopped
  | signalled
  | killed
  | failed
  | notAttempted
deriving Repr, DecidableEq

/-- State threaded through a `start` run: live backend windows, the trace
of adapter calls issued, the per-target report, the number of fallible
adapter calls made so far, and whether the sequence has aborted. -/
structure StartState where
  windows : List String
  trace : List Action
  report : List (String × StartResult)
  calls : Nat
  aborted : Bool
deriving Repr, DecidableEq

/-- Modelled from the spec: one `start` step of the Lifecycle Controller
(spec §4.4). `fail k` is the oracle outcome of the k-th fallible adapter
call of this operation (`none` = success). A running target is a no-op;
a stopped one gets `ensure_session` then `create_window`;
`DuplicateWindow` is treated as already running; `BackendUnavailable`
aborts the remaining sequence. -/
def startOne (fail : Nat → Option BackendErr) (session : String)
    (st : StartState) (p : ProcDesc) : StartState :=
  if st.aborted then
    { st with report := st.report ++ [(p.name, .notAttempted)] }
  else if p.name ∈ st.windows then
    { st with report := st.report ++ [(p.name, .alreadyRunning)] }
  else
    match fail st.calls with
    | some .backendUnavailable =>
      { st with trace := st.trace ++ [.ensureSession session]
                report := st.report ++ [(p.name, .failed)]
                calls := st.calls + 1
                aborted := true }
    | _ =>
      match fail (st.calls + 1) with
      | some .backendUnavailable =>
        { st with trace := st.trace ++
                    [.ensureSession session, .createWindow session p.name p.command]
                  report := st.report ++ [(p.name, .failed)]
                  calls := st.calls + 2
                  aborted := true }
      | some .duplicateWindow =>
        { st with trace := st.trace ++
                    [.ensureSession session, .createWindow session p.name p.command]
                  windows := p.name :: st.windows
                  report := st.report ++ [(p.name, .alreadyRunning)]
                  calls := st.calls + 2 }
      | _ =>
        { st with trace := st.trace ++
                    [.ensureSession session, .createWindow session p.name p.command]
                  windows := p.name :: st.windows
                  report := st.report ++ [(p.name, .started)]
                  calls := st.calls + 2 }

/-- Initial state of a lifecycle run over the backend snapshot taken when
the operation begins. -/
def initState (windows0 : List String) : StartState :=
  { windows := windows0, trace := [], report := [], calls := 0, aborted := false }

/-- Modelled from the spec: a `start` run over an explicit target list
(spec §4.4), sequential by design. -/
def startRun (fail : Nat → Option BackendErr) (session : String)
    (targets : List ProcDesc) (windows0 : List String) : StartState :=
  targets.foldl (startOne fail session) (initState windows0)

/-- Modelled from the spec: `start(group, process_name?)` (spec §4.4). -/
def start (g : Group) (pname : Option String) (windows0 : List String)
    (fail : Nat → Option BackendErr) : StartState :=
  startRun fail g.name (startTargets g pname) windows0

/-- Number of polls the bounded retry loop performs, starting from poll
index `i` with `fuel` attempts remaining: it stops at the first poll
that observes the window gone, and performs at most `fuel` polls
(spec §5). -/
def pollsUsedFrom (vanish : Nat → Bool) (i fuel : Nat) : Nat :=
  match fuel with
  | 0 => 0
  | f + 1 => if vanish i then 1 else 1 + pollsUsedFrom vanish (i + 1) f

/-- Number of polls the bounded wait performs under attempt bound
`bound`. -/
def pollsUsed (vanish : Nat → Bool) (bound : Nat) : Nat :=
  pollsUsedFrom vanish 0 bound

/-- Whether some poll with index in `[i, i + fuel)` observes the window
gone. -/
def windowVanishedFrom (vanish : Nat → Bool) (i fuel : Nat) : Bool :=
  match fuel with
  | 0 => false
  | f + 1 => vanish i || windowVanishedFrom vanish (i + 1) f

/-- Whether the window disappeared within the bounded wait. -/
def windowVanished (vanish : Nat → Bool) (bound : Nat) : Bool :=
  windowVanishedFrom vanish 0 bound

/-- State threaded through a `stop` run (same shape as `StartState` with
stop reports). -/
structure StopState where
  windows : List String
  trace : List Action
  report : List (String × StopResult)
  calls : Nat
  aborted : Bool
deriving Repr, DecidableEq

/-- Modelled from the spec: one `stop` step of the Lifecycle Controller
(spec §4.4, §5). An already-stopped target is a no-op and never an
error. With a declared stop signal the controller sends it and waits in
a capped retry loop (`bound` attempts, `vanish` observes disappearance),
escalating to `kill_window` if the window is still there at the bound;
with no signal it kills directly. `WindowNotFound` on the signal is
recovered as already stopped; `BackendUnavailable` aborts. -/
def stopOne (fail : Nat → Option BackendErr) (vanish : String → Nat → Bool)
    (bound : Nat) (session : String) (st : StopState) (p : ProcDesc) : StopState :=
  if st.aborted then
    { st with report := st.report ++ [(p.name, .notAttempted)] }
  else if p.name ∉ st.windows then
    { st with report := st.report ++ [(p.name, .wasStopped)] }
  else
    match p.stopSignal with
    | some sig =>
      match fail st.calls with
      | some .backendUnavailable =>
        { st with trace := st.trace ++ [.sendSignal session p.name sig]
                  report := st.report ++ [(p.name, .failed)]
                  calls := st.calls + 1
                  aborted := true }
      | some .windowNotFound =>
        { st with trace := st.trace ++ [.sendSignal session p.name sig]
                  windows := st.windows.erase p.name
                  report := st.report ++ [(p.name, .wasStopped)]
                  calls := st.calls + 1 }
      | _ =>
        let polls := List.replicate (pollsUsed (vanish p.name) bound)
          (Action.pollWindow session p.name)
        if windowVanished (vanish p.name) bound then
          { st with trace := st.trace ++ [.sendSignal session p.name sig] ++ polls
                    windows := st.windows.erase p.name
                    report := st.report ++ [(p.name, .signalled)]
                    calls := st.calls + 1 }
        else
          { st with trace := st.trace ++ [.sendSignal session p.name sig] ++ polls ++
                      [.killWindow session p.name]
                    windows := st.windows.erase p.name
                    report := st.report ++ [(p.name, .killed)]
                    calls := st.calls + 2 }
    | none =>
      match fail st.calls with
      | some .backendUnavailable =>
        { st with trace := st.trace ++ [.killWindow session p.name]
                  report := st.report ++ [(p.name, .failed)]
                  calls := st.calls + 1
                  aborted := true }
      | _ =>
        { st with trace := st.trace ++ [.killWindow session p.name]
                  windows := st.windows.erase p.name
                  report := st.report ++ [(p.name, .killed)]
                  calls := st.calls + 1 }

/-- Initial state of a `stop` run. -/
def initStopState (windows0 : List String) : StopState :=
  { windows := windows0, trace := [], report := [], calls := 0, aborted := false }

/-- Modelled from the spec: a `stop` run over an explicit target list
(spec §4.4), sequential, in the order given. -/
def stopRun (fail : Nat → Option BackendErr) (vanish : String → Nat → Bool)
    (bound : Nat) (session : String) (targets : List ProcDesc)
    (windows0 : List String) : StopState :=
  targets.foldl (stopOne fail vanish bound session) (initStopState windows0)

/-- Modelled from the spec: `stop(group, process_name?)` (spec §4.4) —
the `start` target set in reversed order. -/
def stop (g : Group) (pname : Option String) (windows0 : List String)
    (fail : Nat → Option BackendErr) (vanish : String → Nat → Bool)
    (bound : Nat) : StopState :=
  stopRun fail vanish bound g.name (stopTargets g pname) windows0

/-- Modelled from the spec: `restart(group, process_name?)` (spec §4.4) —
the sequential composition of `stop` then `start` on the same target
set; the `start` phase begins from the window state the `stop` phase
left behind. -/
def restart (g : Group) (pname : Option String) (windows0 : List String)
    (failStop : Nat → Option BackendErr) (vanish : String → Nat → Bool)
    (bound : Nat) (failStart : Nat → Option BackendErr) :
    StopState × StartState :=
  let s := stop g pname windows0 failStop vanish bound
  (s, start g pname s.windows failStart)

/-- The full action trace of a `restart`: stop-phase actions followed by
start-phase actions, with no interleaving. -/
def restartTrace (g : Group) (pname : Option String) (windows0 : List String)
    (failStop : Nat → Option BackendErr) (vanish : String → Nat → Bool)
    (bound : Nat) (failStart : Nat → Option BackendErr) : List Action :=
  (restart g pname windows0 failStop vanish bound failStart).1.trace ++
  (restart g pname windows0 failStop vanish bound failStart).2.trace

/-- Whether an action belongs to the startup phase (session creation or
window creation). -/
def isStartup : Action → Bool
  | .ensureSession _ => true
  | .createWindow _ _ _ => true
  | _ => false

/-- Whether an action belongs to the shutdown phase (signal, poll, or
forced removal). -/
def isRemoval : Action → Bool
  | .sendSignal _ _ _ => true
  | .pollWindow _ _ => true
  | .killWindow _ _ => true
  | _ => false

/-- The adapter calls `start` issues for one stopped target
(spec §4.4): `ensure_session` then `create_window`. -/
def startBlock (session : String) (p : ProcDesc) : List Action :=
  [.ensureSession session, .createWindow session p.name p.command]

/-- The adapter calls `stop` issues for one running target when the
backend does not fail (spec §4.4): send the declared stop signal and
poll up to the bound, escalating to `kill_window` if the window never
disappears; or kill directly when no signal is declared. -/
def stopBlock (vanish : String → Nat → Bool) (bound : Nat) (session : String)
    (p : ProcDesc) : List Action :=
  match p.stopSignal with
  | some sig =>
    if windowVanished (vanish p.name) bound then
      .sendSignal session p.name sig ::
        List.replicate (pollsUsed (vanish p.name) bound) (.pollWindow session p.name)
    else
      .sendSignal session p.name sig ::
        (List.replicate (pollsUsed (vanish p.name) bound) (.pollWindow session p.name) ++
          [.killWindow session p.name])
  | none => [.killWindow session p.name]

/-- Concatenation of per-target action blocks, in target order. -/
def traceOf (f : ProcDesc → List Action) : List ProcDesc → List Action
  | [] => []
  | p :: ps => f p ++ traceOf f ps

/-- Example descriptor A(order=1) from the spec's ordering scenario. -/
def descA : ProcDesc := { name := "A", command := "cmd-a", stopSignal := none, order := 1 }

/-- Example descriptor B(order=2). -/
def descB : ProcDesc := { name := "B", command := "cmd-b", stopSignal := none, order := 2 }

/-- Example descriptor C(order=3), declaring a stop signal. -/
def descC : ProcDesc := { name := "C", command := "cmd-c", stopSignal := some "TERM", order := 3 }

/-- Example group with descriptors A(1), B(2), C(3). -/
def webGroup : Group := { name := "web", procs := [descA, descB, descC] }

/-- Failure oracle: the adapter call with index 2 fails with
`BackendUnavailable`; all other calls succeed. -/
def failAtTwo : Nat → Option BackendErr :=
  fun k => if k == 2 then some .backendUnavailable else none

/-- Failure oracle: the adapter call with index 1 fails with
`DuplicateWindow`; all other calls succeed. -/
def dupAtOne : Nat → Option BackendErr :=
  fun k => if k == 1 then some .duplicateWindow else none

/-- Failure oracle: every adapter call succeeds. -/
def noFail : Nat → Option BackendErr := fun _ => none

/-- Disappearance oracle: no poll ever observes the window gone. -/
def neverVanish : String → Nat → Bool := fun _ _ => false

/-- The arguments `setup.py` passes to `setuptools.setup` (from
`src/setup.py`). -/
structure SetupArgs where
  name : String
  version : String
  description : String
  long_description : String
  url : String
  author : String
  license : String
  classifiers : List String
  keywords : String
  scripts : List String
deriving Repr, DecidableEq

/-- Embedding of `src/setup.py`: the script first opens and reads
`README.md`; if that fails (`none`), the exception propagates and
`setup` is never invoked. Otherwise `setup` is called once with the
literal arguments of the source, `long_description` bound to the file
contents read. -/
def setupScript (readme : Option String) : Option SetupArgs :=
  match readme with
  | none => none
  | some long_description =>
    some { name := "pgm"
           version := "0.0.2"
           description := "Process Group Management"
           long_description := long_description
           url := "https://github.com/mrdanbrooks/pgm"
           author := "Dan Brooks"
           license := "Apache v2.0"
           classifiers := [
             "Development Status :: 3 - Alpha",
             "Environment :: Console",
             "Intended Audience :: System Administrators",
             "License :: OSI Approved :: Apache Software License",
             "Programming Language :: Python :: 2.7"]
           keywords := "pgm, tmux"
           scripts := ["pgm"] }

/-! ### Ordering lemmas -/

theorem sortByOrder_perm (ps : List ProcDesc) : (sortByOrder ps).Perm ps :=
  List.perm_insertionSort procLE ps

theorem sortByOrder_sorted (ps : List ProcDesc) : List.Sorted procLE (sortByOrder ps) :=
  List.sorted_insertionSort procLE ps

theorem orderedInsert_filter_eq (a : ProcDesc) (l : List ProcDesc) :
    (List.orderedInsert procLE a l).filter (fun p => p.order == a.order)
      = a :: l.filter (fun p => p.order == a.order) := by
  induction l with
  | nil => simp
  | cons b l ih =>
    by_cases h : procLE a b
    · simp [List.orderedInsert, h]
    · have hb : (b.order == a.order) = false := by
        rw [beq_eq_false_iff_ne]
        have hlt : ¬ a.order ≤ b.order := h
        omega
      simp [List.orderedInsert, h, List.filter_cons, hb, ih]

theorem orderedInsert_filter_ne (a : ProcDesc) (k : Nat) (h : a.order ≠ k)
    (l : List ProcDesc) :
    (List.orderedInsert procLE a l).filter (fun p => p.order == k)
      = l.filter (fun p => p.order == k) := by
  have ha : (a.order == k) = false := by rw [beq_eq_false_iff_ne]; exact h
  induction l with
  | nil => simp [ha]
  | cons b l ih =>
    by_cases hle : procLE a b
    · simp [List.orderedInsert, hle, List.filter_cons, ha]
    · simp [List.orderedInsert, hle, List.filter_cons, ih]

theorem sortByOrder_stable (ps : List ProcDesc) (k : Nat) :
    (sortByOrder ps).filter (fun p => p.order == k)
      = ps.filter (fun p => p.order == k) := by
  induction ps with
  | nil => rfl
  | cons p ps ih =>
    show (List.orderedInsert procLE p (sortByOrder ps)).filter (fun q => q.order == k)
      = (p :: ps).filter (fun q => q.order == k)
    by_cases h : p.order = k
    · subst h
      rw [orderedInsert_filter_eq, ih]
      simp [List.filter_cons]
    · have hp : (p.order == k) = false := by rw [beq_eq_false_iff_ne]; exact h
      rw [orderedInsert_filter_ne p k h, ih]
      simp [List.filter_cons, hp]

/-! ### Start-run lemmas -/

theorem startOne_of_aborted (fail : Nat → Option BackendErr) (session : String)
    (st : StartState) (p : ProcDesc) (h : st.aborted = true) :
    startOne fail session st p
      = { st with report := st.report ++ [(p.name, StartResult.notAttempted)] } := by
  simp [startOne, h]

theorem startRun_of_aborted (fail : Nat → Option BackendErr) (session : String) :
    ∀ (ts : List ProcDesc) (st : StartState), st.aborted = true →
      ts.foldl (startOne fail session) st
        = { st with report :=
              st.report ++ ts.map (fun p => (p.name, StartResult.notAttempted)) } := by
  intro ts
  induction ts with
  | nil => intro st _; simp
  | cons p ts ih =>
    intro st h
    rw [List.foldl_cons, startOne_of_aborted fail session st p h,
      ih { st with report := st.report ++ [(p.name, StartResult.notAttempted)] } h]
    simp

theorem startOne_of_running (fail : Nat → Option BackendErr) (session : String)
    (st : StartState) (p : ProcDesc) (h : st.aborted = false)
    (hm : p.name ∈ st.windows) :
    startOne fail session st p
      = { st with report := st.report ++ [(p.name, StartResult.alreadyRunning)] } := by
  simp [startOne, h, hm]

theorem startRun_of_all_running (fail : Nat → Option BackendErr) (session : String) :
    ∀ (ts : List ProcDesc) (st : StartState), st.aborted = false →
      (∀ p ∈ ts, p.name ∈ st.windows) →
      ts.foldl (startOne fail session) st
        = { st with report :=
              st.report ++ ts.map (fun p => (p.name, StartResult.alreadyRunning)) } := by
  intro ts
  induction ts with
  | nil => intro st _ _; simp
  | cons p ts ih =>
    intro st h hm
    rw [List.foldl_cons, startOne_of_running fail session st p h (hm p (by simp)),
      ih { st with report := st.report ++ [(p.name, StartResult.alreadyRunning)] } h
        (fun q hq => hm q (by simp [hq]))]
    simp

theorem startOne_fresh (session : String) (st : StartState) (p : ProcDesc)
    (h : st.aborted = false) (hm : p.name ∉ st.windows) :
    startOne noFail session st p
      = { st with windows := p.name :: st.windows
                  trace := st.trace ++ startBlock session p
                  report := st.report ++ [(p.name, StartResult.started)]
                  calls := st.calls + 2 } := by
  simp [startOne, h, hm, noFail, startBlock]

theorem startRun_fresh_trace (session : String) :
    ∀ (ts : List ProcDesc) (st : StartState), st.aborted = false →
      (ts.map (fun p => p.name)).Nodup →
      (∀ p ∈ ts, p.name ∉ st.windows) →
      (ts.foldl (startOne noFail session) st).trace
        = st.trace ++ traceOf (startBlock session) ts := by
  intro ts
  induction ts with
  | nil => intro st _ _ _; simp [traceOf]
  | cons p ts ih =>
    intro st h hnd hm
    have hnd2 := hnd
    simp only [List.map_cons, List.nodup_cons, List.mem_map] at hnd2
    have hm2 : ∀ q ∈ ts, q.name ∉ p.name :: st.windows := by
      intro q hq
      have hqp : q.name ≠ p.name := by
        intro he
        exact hnd2.1 ⟨q, hq, he⟩
      simp only [List.mem_cons, not_or]
      exact ⟨hqp, hm q (by simp [hq])⟩
    rw [List.foldl_cons, startOne_fresh session st p h (hm p (by simp)),
      ih { st with windows := p.name :: st.windows
                   trace := st.trace ++ startBlock session p
                   report := st.report ++ [(p.name, StartResult.started)]
                   calls := st.calls + 2 } h (by simpa using hnd.of_cons) hm2]
    simp [traceOf]

theorem startOne_report_names (fail : Nat → Option BackendErr) (session : String)
    (st : StartState) (p : ProcDesc) :
    (startOne fail session st p).report.map Prod.fst
      = st.report.map Prod.fst ++ [p.name] := by
  unfold startOne
  split
  · simp
  split
  · simp
  split
  · simp
  split <;> simp

theorem startRun_report_names (fail : Nat → Option BackendErr) (session : String) :
    ∀ (ts : List ProcDesc) (st : StartState),
      (ts.foldl (startOne fail session) st).report.map Prod.fst
        = st.report.map Prod.fst ++ ts.map (fun p => p.name) := by
  intro ts
  induction ts with
  | nil => intro st; simp
  | cons p ts ih =>
    intro st
    rw [List.foldl_cons, ih, startOne_report_names]
    simp

theorem startOne_started_mem (fail : Nat → Option BackendErr) (session : String)
    (st : StartState) (p : ProcDesc)
    (h : ∀ n, (n, StartResult.started) ∈ st.report → n ∈ st.windows) :
    ∀ n, (n, StartResult.started) ∈ (startOne fail session st p).report →
      n ∈ (startOne fail session st p).windows := by
  unfold startOne
  split
  · intro n hn
    simp at hn
    exact h n hn
  split
  · intro n hn
    simp at hn
    exact h n hn
  split
  · intro n hn
    simp at hn
    exact h n hn
  split
  · intro n hn
    simp at hn
    exact h n hn
  · intro n hn
    simp at hn
    exact List.mem_cons_of_mem _ (h n hn)
  · intro n hn
    simp at hn
    rcases hn with hn | hn
    · exact List.mem_cons_of_mem _ (h n hn)
    · simp [hn]

theorem startRun_started_mem (fail : Nat → Option BackendErr) (session : String) :
    ∀ (ts : List ProcDesc) (st : StartState),
      (∀ n, (n, StartResult.started) ∈ st.report → n ∈ st.windows) →
      ∀ n, (n, StartResult.started) ∈ (ts.foldl (startOne fail session) st).report →
        n ∈ (ts.foldl (startOne fail session) st).windows := by
  intro ts
  induction ts with
  | nil => intro st h; exact h
  | cons p ts ih =>
    intro st h
    rw [List.foldl_cons]
    exact ih _ (startOne_started_mem fail session st p h)

theorem startOne_trace_startup (fail : Nat → Option BackendErr) (session : String)
    (st : StartState) (p : ProcDesc)
    (h : ∀ a ∈ st.trace, isStartup a = true) :
    ∀ a ∈ (startOne fail session st p).trace, isStartup a = true := by
  unfold startOne
  split
  · exact h
  split
  · exact h
  split
  · intro a ha
    simp at ha
    rcases ha with ha | ha
    · exact h a ha
    · simp [ha, isStartup]
  split
  · intro a ha
    simp at ha
    rcases ha with ha | ha | ha
    · exact h a ha
    · simp [ha, isStartup]
    · simp [ha, isStartup]
  · intro a ha
    simp at ha
    rcases ha with ha | ha | ha
    · exact h a ha
    · simp [ha, isStartup]
    · simp [ha, isStartup]
  · intro a ha
    simp at ha
    rcases ha with ha | ha | ha
    · exact h a ha
    · simp [ha, isStartup]
    · simp [ha, isStartup]

theorem startRun_trace_startup (fail : Nat → Option BackendErr) (session : String) :
    ∀ (ts : List ProcDesc) (st : StartState),
      (∀ a ∈ st.trace, isStartup a = true) →
      ∀ a ∈ (ts.foldl (startOne fail session) st).trace, isStartup a = true := by
  intro ts
  induction ts with
  | nil => intro st h; exact h
  | cons p ts ih =>
    intro st h
    rw [List.foldl_cons]
    exact ih _ (startOne_trace_startup fail session st p h)

/-! ### Stop-run lemmas -/

theorem stopOne_of_notMem (fail : Nat → Option BackendErr)
    (vanish : String → Nat → Bool) (bound : Nat) (session : String)
    (st : StopState) (p : ProcDesc) (h : st.aborted = false)
    (hm : p.name ∉ st.windows) :
    stopOne fail vanish bound session st p
      = { st with report := st.report ++ [(p.name, StopResult.wasStopped)] } := by
  simp [stopOne, h, hm]

theorem stopRun_of_all_stopped (fail : Nat → Option BackendErr)
    (vanish : String → Nat → Bool) (bound : Nat) (session : String) :
    ∀ (ts : List ProcDesc) (st : StopState), st.aborted = false →
      (∀ p ∈ ts, p.name ∉ st.windows) →
      ts.foldl (stopOne fail vanish bound session) st
        = { st with report :=
              st.report ++ ts.map (fun p => (p.name, StopResult.wasStopped)) } := by
  intro ts
  induction ts with
  | nil => intro st _ _; simp
  | cons p ts ih =>
    intro st h hm
    rw [List.foldl_cons, stopOne_of_notMem fail vanish bound session st p h (hm p (by simp)),
      ih { st with report := st.report ++ [(p.name, StopResult.wasStopped)] } h
        (fun q hq => hm q (by simp [hq]))]
    simp

theorem stopOne_fresh (vanish : String → Nat → Bool) (bound : Nat) (session : String)
    (st : StopState) (p : ProcDesc) (h : st.aborted = false) (hm : p.name ∈ st.windows) :
    stopOne noFail vanish bound session st p
      = { st with trace := st.trace ++ stopBlock vanish bound session p
                  windows := st.windows.erase p.name
                  report := st.report ++ [(p.name,
                    match p.stopSignal with
                    | some _ =>
                      if windowVanished (vanish p.name) bound then StopResult.signalled
                      else StopResult.killed
                    | none => StopResult.killed)]
                  calls := st.calls +
                    (match p.stopSignal with
                     | some _ => if windowVanished (vanish p.name) bound then 1 else 2
                     | none => 1) } := by
  cases hs : p.stopSignal with
  | none => simp [stopOne, h, hm, hs, noFail, stopBlock]
  | some sig =>
    by_cases hv : windowVanished (vanish p.name) bound
    · simp [stopOne, h, hm, hs, noFail, stopBlock, hv]
    · simp [stopOne, h, hm, hs, noFail, stopBlock, hv]

theorem stopRun_fresh_trace (vanish : String → Nat → Bool) (bound : Nat)
    (session : String) :
    ∀ (ts : List ProcDesc) (st : StopState), st.aborted = false →
      (ts.map (fun p => p.name)).Nodup →
      (∀ p ∈ ts, p.name ∈ st.windows) →
      (ts.foldl (stopOne noFail vanish bound session) st).trace
        = st.trace ++ traceOf (stopBlock vanish bound session) ts := by
  intro ts
  induction ts with
  | nil => intro st _ _ _; simp [traceOf]
  | cons p ts ih =>
    intro st h hnd hm
    have hnd2 := hnd
    simp only [List.map_cons, List.nodup_cons, List.mem_map] at hnd2
    have hm2 : ∀ q ∈ ts, q.name ∈ st.windows.erase p.name := by
      intro q hq
      have hqp : q.name ≠ p.name := fun he => hnd2.1 ⟨q, hq, he⟩
      exact (List.mem_erase_of_ne hqp).2 (hm q (by simp [hq]))
    have hst := stopOne_fresh vanish bound session st p h (hm p (by simp))
    have hab : (stopOne noFail vanish bound session st p).aborted = false := by
      rw [hst]; exact h
    have hm3 : ∀ q ∈ ts, q.name ∈ (stopOne noFail vanish bound session st p).windows := by
      rw [hst]; exact hm2
    rw [List.foldl_cons,
      ih (stopOne noFail vanish bound session st p) hab (by simpa using hnd.of_cons) hm3,
      hst]
    simp [traceOf]

theorem stopOne_trace_removal (fail : Nat → Option BackendErr)
    (vanish : String → Nat → Bool) (bound : Nat) (session : String)
    (st : StopState) (p : ProcDesc)
    (h : ∀ a ∈ st.trace, isRemoval a = true) :
    ∀ a ∈ (stopOne fail vanish bound session st p).trace, isRemoval a = true := by
  unfold stopOne
  split
  · exact h
  split
  · exact h
  split
  · split
    · intro a ha
      simp at ha
      rcases ha with ha | ha
      · exact h a ha
      · simp [ha, isRemoval]
    · intro a ha
      simp at ha
      rcases ha with ha | ha
      · exact h a ha
      · simp [ha, isRemoval]
    · split
      · intro a ha
        simp [List.mem_replicate] at ha
        rcases ha with ha | ha | ha
        · exact h a ha
        · simp [ha, isRemoval]
        · simp [ha.2, isRemoval]
      · intro a ha
        simp [List.mem_replicate] at ha
        rcases ha with ha | ha | ha | ha
        · exact h a ha
        · simp [ha, isRemoval]
        · simp [ha.2, isRemoval]
        · simp [ha, isRemoval]
  · split
    · intro a ha
      simp at ha
      rcases ha with ha | ha
      · exact h a ha
      · simp [ha, isRemoval]
    · intro a ha
      simp at ha
      rcases ha with ha | ha
      · exact h a ha
      · simp [ha, isRemoval]

theorem stopRun_trace_removal (fail : Nat → Option BackendErr)
    (vanish : String → Nat → Bool) (bound : Nat) (session : String) :
    ∀ (ts : List ProcDesc) (st : StopState),
      (∀ a ∈ st.trace, isRemoval a = true) →
      ∀ a ∈ (ts.foldl (stopOne fail vanish bound session) st).trace,
        isRemoval a = true := by
  intro ts
  induction ts with
  | nil => intro st h; exact h
  | cons p ts ih =>
    intro st h
    rw [List.foldl_cons]
    exact ih _ (stopOne_trace_removal fail vanish bound session st p h)

/-! ### Bounded-wait lemmas -/

theorem pollsUsedFrom_le (v : Nat → Bool) :
    ∀ (fuel i : Nat), pollsUsedFrom v i fuel ≤ fuel := by
  intro fuel
  induction fuel with
  | zero => intro i; simp [pollsUsedFrom]
  | succ f ih =>
    intro i
    have hrec := ih (i + 1)
    by_cases hv : v i
    · simp [pollsUsedFrom, hv]
    · simp [pollsUsedFrom, hv]
      omega

theorem pollsUsedFrom_of_never (v : Nat → Bool) :
    ∀ (fuel i : Nat), (∀ j, j < fuel → v (i + j) = false) →
      pollsUsedFrom v i fuel = fuel := by
  intro fuel
  induction fuel with
  | zero => intro i _; rfl
  | succ f ih =>
    intro i hv
    have h0 : v i = false := by simpa using hv 0 (by omega)
    have hrest : ∀ j, j < f → v (i + 1 + j) = false := by
      intro j hj
      have := hv (j + 1) (by omega)
      rwa [show i + (j + 1) = i + 1 + j by omega] at this
    simp [pollsUsedFrom, h0, ih (i + 1) hrest]
    omega

theorem windowVanishedFrom_of_never (v : Nat → Bool) :
    ∀ (fuel i : Nat), (∀ j, j < fuel → v (i + j) = false) →
      windowVanishedFrom v i fuel = false := by
  intro fuel
  induction fuel with
  | zero => intro i _; rfl
  | succ f ih =>
    intro i hv
    have h0 : v i = false := by simpa using hv 0 (by omega)
    have hrest : ∀ j, j < f → v (i + 1 + j) = false := by
      intro j hj
      have := hv (j + 1) (by omega)
      rwa [show i + (j + 1) = i + 1 + j by omega] at this
    simp [windowVanishedFrom, h0, ih (i + 1) hrest]

/-! ### Reconciliation lemmas -/

theorem all_congr {α : Type} (l : List α) (f g : α → Bool)
    (h : ∀ a ∈ l, f a = g a) : l.all f = l.all g := by
  induction l with
  | nil => rfl
  | cons a l ih => simp [List.all_cons, h a (by simp), ih (fun b hb => h b (by simp [hb]))]

theorem procStatus_congr (p : ProcDesc) (s₁ s₂ : List String)
    (h : ∀ w, w ∈ s₁ ↔ w ∈ s₂) : procStatus s₁ p = procStatus s₂ p := by
  simp only [procStatus]
  rw [if_congr (h p.name) rfl rfl]

theorem statusReport_congr (g : Group) (s₁ s₂ : List String)
    (h : ∀ w, w ∈ s₁ ↔ w ∈ s₂) : statusReport g s₁ = statusReport g s₂ := by
  apply List.map_congr_left
  intro p _
  rw [procStatus_congr p s₁ s₂ h]

theorem isOrphan_of_mem_procs (g : Group) (p : ProcDesc) (hp : p ∈ g.procs) :
    isOrphan g p.name = false := by
  have : g.procs.any (fun q => q.name == p.name) = true :=
    List.any_eq_true.2 ⟨p, hp, by simp⟩
  simp [isOrphan, this]

theorem isOrphan_names_ne (g : Group) (w : String) (h : isOrphan g w = true) :
    ∀ p ∈ g.procs, p.name ≠ w := by
  intro p hp he
  have : g.procs.any (fun q => q.name == w) = true :=
    List.any_eq_true.2 ⟨p, hp, by simp [he]⟩
  simp [isOrphan, this] at h

theorem procStatus_erase (p : ProcDesc) (s : List String) (w : String)
    (hne : p.name ≠ w) : procStatus (s.erase w) p = procStatus s p := by
  simp only [procStatus]
  rw [if_congr (List.mem_erase_of_ne hne) rfl rfl]

theorem aggregate_erase (g : Group) (s : List String) (w : String)
    (h : ∀ p ∈ g.procs, p.name ≠ w) :
    aggregate g (s.erase w) = aggregate g s := by
  have e1 : g.procs.all (fun p => procStatus (s.erase w) p == PStatus.running)
      = g.procs.all (fun p => procStatus s p == PStatus.running) :=
    all_congr _ _ _ (fun p hp => by rw [procStatus_erase p s w (h p hp)])
  have e2 : g.procs.all (fun p => procStatus (s.erase w) p == PStatus.stopped)
      = g.procs.all (fun p => procStatus s p == PStatus.stopped) :=
    all_congr _ _ _ (fun p hp => by rw [procStatus_erase p s w (h p hp)])
  simp only [aggregate, e1, e2]

theorem statusReport_erase (g : Group) (s : List String) (w : String)
    (h : ∀ p ∈ g.procs, p.name ≠ w) :
    statusReport g (s.erase w) = statusReport g s := by
  apply List.map_congr_left
  intro p hp
  rw [procStatus_erase p s w (h p hp)]

/-! ### Claim theorems -/

/-- C2: the Group State Tracker's reconciled per-process status is a pure
function of a single `list_windows` snapshot plus the descriptor list —
two snapshots with the same window membership yield the same report, so
the result is independent of any prior call history; and for descriptors
A, B, C with a snapshot containing "A" and "C" but not "B", status
reports A=running, B=stopped, C=running. -/
theorem status_pure_function_of_snapshot :
    (∀ (g : Group) (s₁ s₂ : List String), (∀ w, w ∈ s₁ ↔ w ∈ s₂) →
      statusReport g s₁ = statusReport g s₂)
    ∧ statusReport webGroup ["A", "C"]
      = [("A", PStatus.running), ("B", PStatus.stopped), ("C", PStatus.running)] := by
  constructor
  · exact fun g s₁ s₂ h => statusReport_congr g s₁ s₂ h
  · rfl

/-- Witness for C2: two concrete snapshots with equal membership produce
the same status report. -/
theorem status_pure_function_of_snapshot_witness :
    (∀ w : String, w ∈ ["A", "A", "C"] ↔ w ∈ ["A", "C"])
    ∧ statusReport webGroup ["A", "A", "C"] = statusReport webGroup ["A", "C"] :=
  ⟨fun w => by simp [List.mem_cons],
   status_pure_function_of_snapshot.1 webGroup ["A", "A", "C"] ["A", "C"]
     (fun w => by simp [List.mem_cons])⟩

/-- C3: when every target of `start` is already running, `start` is a
no-op — it issues no backend calls at all (in particular no
`create_window`), leaves the backend window state unchanged, and reports
every target as already running. -/
theorem start_noop_on_fully_running (g : Group) (pname : Option String)
    (windows0 : List String) (fail : Nat → Option BackendErr)
    (h : ∀ p ∈ startTargets g pname, p.name ∈ windows0) :
    (start g pname windows0 fail).trace = []
    ∧ (start g pname windows0 fail).windows = windows0
    ∧ (start g pname windows0 fail).report
      = (startTargets g pname).map (fun p => (p.name, StartResult.alreadyRunning)) := by
  have key := startRun_of_all_running fail g.name (startTargets g pname)
    (initState windows0) rfl h
  simp only [start, startRun]
  rw [key]
  simp [initState]

/-- Witness for C3: with A, B, C all running, `start` issues nothing and
leaves the windows untouched. -/
theorem start_noop_on_fully_running_witness :
    (∀ p ∈ startTargets webGroup none, p.name ∈ ["A", "B", "C"])
    ∧ ((start webGroup none ["A", "B", "C"] noFail).trace = []
      ∧ (start webGroup none ["A", "B", "C"] noFail).windows = ["A", "B", "C"]
      ∧ (start webGroup none ["A", "B", "C"] noFail).report
        = (startTargets webGroup none).map (fun p => (p.name, StartResult.alreadyRunning))) :=
  ⟨by decide, start_noop_on_fully_running webGroup none ["A", "B", "C"] noFail (by decide)⟩

/-- C4: when every target of `stop` is already stopped, `stop` is a
no-op — no backend calls, unchanged window state, every target reported
as already stopped and never as an error. -/
theorem stop_noop_on_fully_stopped (g : Group) (pname : Option String)
    (windows0 : List String) (fail : Nat → Option BackendErr)
    (vanish : String → Nat → Bool) (bound : Nat)
    (h : ∀ p ∈ stopTargets g pname, p.name ∉ windows0) :
    (stop g pname windows0 fail vanish bound).trace = []
    ∧ (stop g pname windows0 fail vanish bound).windows = windows0
    ∧ (stop g pname windows0 fail vanish bound).report
      = (stopTargets g pname).map (fun p => (p.name, StopResult.wasStopped))
    ∧ ∀ x ∈ (stop g pname windows0 fail vanish bound).report,
        x.2 ≠ StopResult.failed := by
  have key := stopRun_of_all_stopped fail vanish bound g.name (stopTargets g pname)
    (initStopState windows0) rfl h
  simp only [stop, stopRun]
  rw [key]
  refine ⟨by simp [initStopState], by simp [initStopState], by simp [initStopState], ?_⟩
  intro x hx
  simp [initStopState] at hx
  obtain ⟨p, _, hp⟩ := hx
  rw [← hp]
  simp

/-- Witness for C4: stopping the group while nothing is running issues no
actions and reports every process as already stopped. -/
theorem stop_noop_on_fully_stopped_witness :
    (∀ p ∈ stopTargets webGroup none, p.name ∉ ["X"])
    ∧ ((stop webGroup none ["X"] noFail neverVanish 2).trace = []
      ∧ (stop webGroup none ["X"] noFail neverVanish 2).windows = ["X"]
      ∧ (stop webGroup none ["X"] noFail neverVanish 2).report
        = (stopTargets webGroup none).map (fun p => (p.name, StopResult.wasStopped))
      ∧ ∀ x ∈ (stop webGroup none ["X"] noFail neverVanish 2).report,
          x.2 ≠ StopResult.failed) :=
  ⟨by decide, stop_noop_on_fully_stopped webGroup none ["X"] noFail neverVanish 2 (by decide)⟩

/-- C6: a live backend window matching no Process Descriptor is reported
among the orphaned windows, and it does not affect the per-process
statuses or the group-level aggregate (removing it changes neither). -/
theorem orphan_reported_and_excluded (g : Group) (s : List String) (w : String)
    (h : isOrphan g w = true) (hm : w ∈ s) :
    w ∈ orphanWindows g s
    ∧ aggregate g s = aggregate g (s.erase w)
    ∧ statusReport g s = statusReport g (s.erase w) := by
  have hne := isOrphan_names_ne g w h
  refine ⟨?_, (aggregate_erase g s w hne).symm, (statusReport_erase g s w hne).symm⟩
  simp [orphanWindows, List.mem_filter, hm, h]

/-- Witness for C6: the stray window "X" is reported orphaned and its
presence leaves statuses and the aggregate unchanged. -/
theorem orphan_reported_and_excluded_witness :
    (isOrphan webGroup "X" = true ∧ "X" ∈ ["A", "X", "C"])
    ∧ ("X" ∈ orphanWindows webGroup ["A", "X", "C"]
      ∧ aggregate webGroup ["A", "X", "C"] = aggregate webGroup (["A", "X", "C"].erase "X")
      ∧ statusReport webGroup ["A", "X", "C"]
        = statusReport webGroup (["A", "X", "C"].erase "X")) :=
  ⟨⟨by decide, by decide⟩,
   orphan_reported_and_excluded webGroup ["A", "X", "C"] "X" (by decide) (by decide)⟩

/-- C10: the packaging script reads the full contents of README.md and
then invokes `setup` exactly once, with `long_description` equal to
those contents and a single executable script named "pgm"; when
README.md cannot be opened, `setup` is never invoked. -/
theorem setup_reads_readme_before_invocation :
    (∀ contents : String, ∃ args : SetupArgs,
      setupScript (some contents) = some args
      ∧ args.long_description = contents
      ∧ args.scripts = ["pgm"])
    ∧ setupScript none = none :=
  ⟨fun _ => ⟨_, rfl, rfl, rfl⟩, rfl⟩

theorem startOne_abort_report (fail : Nat → Option BackendErr) (session : String)
    (st : StartState) (p : ProcDesc) (h : st.aborted = false)
    (habort : (startOne fail session st p).aborted = true) :
    (startOne fail session st p).report = st.report ++ [(p.name, StartResult.failed)] := by
  unfold startOne at habort ⊢
  split at habort
  · simp_all
  split at habort
  · simp_all
  split at habort
  · simp_all
  split at habort <;> simp_all

/-- C5: when a fallible backend call made for target `p` during a
multi-process `start` fails with `BackendUnavailable` (the run was not
aborted before `p`, and processing `p` sets the abort flag), the
controller issues no further start actions — the final state equals the
state right after the failing step except that every remaining target is
reported `notAttempted` — the failing target is reported `failed`,
every process reported `started` is still present in the final backend
window state (no rollback), and the report names every target. -/
theorem start_backendUnavailable_fail_fast (g : Group) (pname : Option String)
    (windows0 : List String) (fail : Nat → Option BackendErr)
    (ts₁ ts₂ : List ProcDesc) (p : ProcDesc)
    (hsplit : startTargets g pname = ts₁ ++ p :: ts₂)
    (hok : (startRun fail g.name ts₁ windows0).aborted = false)
    (habort : (startOne fail g.name (startRun fail g.name ts₁ windows0) p).aborted = true) :
    start g pname windows0 fail
      = { startOne fail g.name (startRun fail g.name ts₁ windows0) p with
          report := (startOne fail g.name (startRun fail g.name ts₁ windows0) p).report
            ++ ts₂.map (fun q => (q.name, StartResult.notAttempted)) }
    ∧ (startOne fail g.name (startRun fail g.name ts₁ windows0) p).report
      = (startRun fail g.name ts₁ windows0).report ++ [(p.name, StartResult.failed)]
    ∧ (∀ n, (n, StartResult.started) ∈ (start g pname windows0 fail).report →
        n ∈ (start g pname windows0 fail).windows)
    ∧ (start g pname windows0 fail).report.map Prod.fst
      = (startTargets g pname).map (fun q => q.name) := by
  have he : start g pname windows0 fail
      = ts₂.foldl (startOne fail g.name)
          (startOne fail g.name (startRun fail g.name ts₁ windows0) p) := by
    simp [start, startRun, hsplit, List.foldl_append]
  refine ⟨?_, startOne_abort_report fail g.name _ p hok habort, ?_, ?_⟩
  · rw [he, startRun_of_aborted fail g.name ts₂ _ habort]
  · intro n hn
    have key := startRun_started_mem fail g.name (startTargets g pname)
      (initState windows0) (by intro m hm; simp [initState] at hm)
    exact key n hn
  · have key := startRun_report_names fail g.name (startTargets g pname) (initState windows0)
    simpa [start, startRun, initState] using key

/-- Witness for C5: in the A, B, C group with the third adapter call
failing, A starts, B fails, C is not attempted, and A remains in the
final window state. -/
theorem start_backendUnavailable_fail_fast_witness :
    (startTargets webGroup none = [descA] ++ descB :: [descC]
      ∧ (startRun failAtTwo "web" [descA] []).aborted = false
      ∧ (startOne failAtTwo "web" (startRun failAtTwo "web" [descA] []) descB).aborted = true)
    ∧ (start webGroup none [] failAtTwo
        = { startOne failAtTwo "web" (startRun failAtTwo "web" [descA] []) descB with
            report := (startOne failAtTwo "web" (startRun failAtTwo "web" [descA] []) descB).report
              ++ [descC].map (fun q => (q.name, StartResult.notAttempted)) }
      ∧ (startOne failAtTwo "web" (startRun failAtTwo "web" [descA] []) descB).report
        = (startRun failAtTwo "web" [descA] []).report ++ [(descB.name, StartResult.failed)]
      ∧ (∀ n, (n, StartResult.started) ∈ (start webGroup none [] failAtTwo).report →
          n ∈ (start webGroup none [] failAtTwo).windows)
      ∧ (start webGroup none [] failAtTwo).report.map Prod.fst
        = (startTargets webGroup none).map (fun q => q.name)) :=
  ⟨⟨by decide, by decide, by decide⟩,
   start_backendUnavailable_fail_fast webGroup none [] failAtTwo [descA] [descC] descB
     (by decide) (by decide) (by decide)⟩

/-- C9: when the `create_window` call for a stopped target fails with
`DuplicateWindow` (the ensure-session call did not fail fatally), the
controller treats that process as already running — it is reported
`alreadyRunning`, never as an error — the run does not abort, and the
sequence continues so that the final report still names every target. -/
theorem start_duplicateWindow_treated_running (g : Group) (pname : Option String)
    (windows0 : List String) (fail : Nat → Option BackendErr)
    (ts₁ ts₂ : List ProcDesc) (p : ProcDesc)
    (hsplit : startTargets g pname = ts₁ ++ p :: ts₂)
    (hok : (startRun fail g.name ts₁ windows0).aborted = false)
    (hmem : p.name ∉ (startRun fail g.name ts₁ windows0).windows)
    (hf1 : fail (startRun fail g.name ts₁ windows0).calls ≠ some BackendErr.backendUnavailable)
    (hf2 : fail ((startRun fail g.name ts₁ windows0).calls + 1)
      = some BackendErr.duplicateWindow) :
    (startOne fail g.name (startRun fail g.name ts₁ windows0) p).report
      = (startRun fail g.name ts₁ windows0).report ++ [(p.name, StartResult.alreadyRunning)]
    ∧ (startOne fail g.name (startRun fail g.name ts₁ windows0) p).aborted = false
    ∧ (start g pname windows0 fail).report.map Prod.fst
      = (ts₁ ++ p :: ts₂).map (fun q => q.name) := by
  have hrest : (start g pname windows0 fail).report.map Prod.fst
      = (ts₁ ++ p :: ts₂).map (fun q => q.name) := by
    have key := startRun_report_names fail g.name (startTargets g pname) (initState windows0)
    rw [hsplit] at key
    simpa [start, startRun, hsplit, initState] using key
  rcases hfc : fail (startRun fail g.name ts₁ windows0).calls with _ | err
  · exact ⟨by simp [startOne, hok, hmem, hfc, hf2], by simp [startOne, hok, hmem, hfc, hf2],
      hrest⟩
  · cases err with
    | backendUnavailable => exact absurd hfc hf1
    | duplicateWindow =>
      exact ⟨by simp [startOne, hok, hmem, hfc, hf2], by simp [startOne, hok, hmem, hfc, hf2],
        hrest⟩
    | windowNotFound =>
      exact ⟨by simp [startOne, hok, hmem, hfc, hf2], by simp [startOne, hok, hmem, hfc, hf2],
        hrest⟩

/-- Witness for C9: the first `create_window` call races with an external
window of the same name; A is reported already running, the run
continues, and B and C are still processed. -/
theorem start_duplicateWindow_treated_running_witness :
    (startTargets webGroup none = [] ++ descA :: [descB, descC]
      ∧ (startRun dupAtOne "web" [] []).aborted = false
      ∧ descA.name ∉ (startRun dupAtOne "web" [] []).windows
      ∧ dupAtOne (startRun dupAtOne "web" [] []).calls ≠ some BackendErr.backendUnavailable
      ∧ dupAtOne ((startRun dupAtOne "web" [] []).calls + 1)
        = some BackendErr.duplicateWindow)
    ∧ ((startOne dupAtOne "web" (startRun dupAtOne "web" [] []) descA).report
        = (startRun dupAtOne "web" [] []).report ++ [(descA.name, StartResult.alreadyRunning)]
      ∧ (startOne dupAtOne "web" (startRun dupAtOne "web" [] []) descA).aborted = false
      ∧ (start webGroup none [] dupAtOne).report.map Prod.fst
        = (([] : List ProcDesc) ++ descA :: [descB, descC]).map (fun q => q.name)) :=
  ⟨⟨by decide, by decide, by decide, by decide, by decide⟩,
   start_duplicateWindow_treated_running webGroup none [] dupAtOne [] [descB, descC] descA
     (by decide) (by decide) (by decide) (by decide) (by decide)⟩

/-- C7: stopping a running process with a declared stop signal sends the
signal, polls in a capped retry loop (exactly `bound` polls when the
window never disappears), then escalates to `kill_window`; the process
is reported `killed` and its status afterwards is `stopped`; and the
retry loop never exceeds its fixed bound, so the wait is always
finite. -/
theorem stop_bounded_wait_escalates (g : Group) (n : String) (p : ProcDesc)
    (sig : String) (windows0 : List String) (fail : Nat → Option BackendErr)
    (vanish : String → Nat → Bool) (bound : Nat)
    (htgt : stopTargets g (some n) = [p])
    (hsig : p.stopSignal = some sig)
    (hmem : p.name ∈ windows0)
    (hnd : windows0.Nodup)
    (hnev : ∀ i, i < bound → vanish p.name i = false)
    (hf : fail 0 = none) :
    (stop g (some n) windows0 fail vanish bound).trace
      = Action.sendSignal g.name p.name sig ::
          (List.replicate bound (Action.pollWindow g.name p.name) ++
            [Action.killWindow g.name p.name])
    ∧ (stop g (some n) windows0 fail vanish bound).report = [(p.name, StopResult.killed)]
    ∧ procStatus (stop g (some n) windows0 fail vanish bound).windows p = PStatus.stopped
    ∧ (∀ (v : Nat → Bool) (b : Nat), pollsUsed v b ≤ b) := by
  have hv : windowVanished (vanish p.name) bound = false :=
    windowVanishedFrom_of_never (vanish p.name) bound 0
      (fun j hj => by simpa using hnev j hj)
  have hpu : pollsUsed (vanish p.name) bound = bound :=
    pollsUsedFrom_of_never (vanish p.name) bound 0
      (fun j hj => by simpa using hnev j hj)
  have herase : p.name ∉ windows0.erase p.name := hnd.not_mem_erase
  refine ⟨?_, ?_, ?_, fun v b => pollsUsedFrom_le v b 0⟩
  · simp [stop, stopRun, htgt, stopOne, initStopState, hmem, hsig, hf, hv, hpu]
  · simp [stop, stopRun, htgt, stopOne, initStopState, hmem, hsig, hf, hv, hpu]
  · simp [stop, stopRun, htgt, stopOne, initStopState, hmem, hsig, hf, hv, hpu,
      procStatus, herase]

/-- Witness for C7: stopping "C" (signal TERM, window never disappears,
bound 2) sends the signal, polls twice, kills, and reports C stopped. -/
theorem stop_bounded_wait_escalates_witness :
    (stopTargets webGroup (some "C") = [descC]
      ∧ descC.stopSignal = some "TERM"
      ∧ descC.name ∈ ["C"]
      ∧ (["C"] : List String).Nodup
      ∧ (∀ i, i < 2 → neverVanish "C" i = false)
      ∧ noFail 0 = none)
    ∧ ((stop webGroup (some "C") ["C"] noFail neverVanish 2).trace
        = Action.sendSignal "web" "C" "TERM" ::
            (List.replicate 2 (Action.pollWindow "web" "C") ++ [Action.killWindow "web" "C"])
      ∧ (stop webGroup (some "C") ["C"] noFail neverVanish 2).report
        = [("C", StopResult.killed)]
      ∧ procStatus (stop webGroup (some "C") ["C"] noFail neverVanish 2).windows descC
        = PStatus.stopped
      ∧ (∀ (v : Nat → Bool) (b : Nat), pollsUsed v b ≤ b)) :=
  ⟨⟨by decide, rfl, by decide, by decide, fun _ _ => rfl, rfl⟩,
   stop_bounded_wait_escalates webGroup "C" descC "TERM" ["C"] noFail neverVanish 2
     (by decide) rfl (by decide) (by decide) (fun _ _ => rfl) rfl⟩

/-- C8: `restart` is exactly the sequential composition of `stop` then
`start` on the same target set (the stop targets are the start targets
reversed); its trace is the stop-phase trace followed by the start-phase
trace with no interleaving, every stop-phase action is a removal-phase
action, every start-phase action is a startup-phase action, and no
action is both — so all removal actions for a process precede any
window creation for it, and two instances of the same named process
never run concurrently. -/
theorem restart_is_sequential_stop_then_start (g : Group) (pname : Option String)
    (windows0 : List String) (failStop : Nat → Option BackendErr)
    (vanish : String → Nat → Bool) (bound : Nat)
    (failStart : Nat → Option BackendErr) :
    restart g pname windows0 failStop vanish bound failStart
      = (stop g pname windows0 failStop vanish bound,
         start g pname (stop g pname windows0 failStop vanish bound).windows failStart)
    ∧ stopTargets g pname = (startTargets g pname).reverse
    ∧ restartTrace g pname windows0 failStop vanish bound failStart
      = (stop g pname windows0 failStop vanish bound).trace ++
        (start g pname (stop g pname windows0 failStop vanish bound).windows failStart).trace
    ∧ (∀ a ∈ (stop g pname windows0 failStop vanish bound).trace, isRemoval a = true)
    ∧ (∀ a ∈ (start g pname (stop g pname windows0 failStop vanish bound).windows
        failStart).trace, isStartup a = true)
    ∧ (∀ a : Action, ¬(isStartup a = true ∧ isRemoval a = true)) := by
  refine ⟨rfl, rfl, rfl, ?_, ?_, ?_⟩
  · exact stopRun_trace_removal failStop vanish bound g.name (stopTargets g pname)
      (initStopState windows0) (by intro a ha; simp [initStopState] at ha)
  · exact startRun_trace_startup failStart g.name (startTargets g pname)
      (initState (stop g pname windows0 failStop vanish bound).windows)
      (by intro a ha; simp [initState] at ha)
  · intro a
    cases a <;> simp [isStartup, isRemoval]

/-- Witness for C8: the sequential-composition and phase-separation
properties evaluated on the A, B, C group. -/
theorem restart_is_sequential_stop_then_start_witness :
    restart webGroup none ["A", "B", "C"] noFail neverVanish 1 noFail
      = (stop webGroup none ["A", "B", "C"] noFail neverVanish 1,
         start webGroup none
           (stop webGroup none ["A", "B", "C"] noFail neverVanish 1).windows noFail)
    ∧ stopTargets webGroup none = (startTargets webGroup none).reverse
    ∧ restartTrace webGroup none ["A", "B", "C"] noFail neverVanish 1 noFail
      = (stop webGroup none ["A", "B", "C"] noFail neverVanish 1).trace ++
        (start webGroup none
          (stop webGroup none ["A", "B", "C"] noFail neverVanish 1).windows noFail).trace
    ∧ (∀ a ∈ (stop webGroup none ["A", "B", "C"] noFail neverVanish 1).trace,
        isRemoval a = true)
    ∧ (∀ a ∈ (start webGroup none
        (stop webGroup none ["A", "B", "C"] noFail neverVanish 1).windows noFail).trace,
        isStartup a = true)
    ∧ (∀ a : Action, ¬(isStartup a = true ∧ isRemoval a = true)) :=
  restart_is_sequential_stop_then_start webGroup none ["A", "B", "C"] noFail neverVanish 1 noFail

/-- C1: with no process name given, `start` issues its adapter calls as
the concatenation of per-descriptor blocks (`ensure_session` then
`create_window`) over the descriptors sorted in ascending order-index
order, and `stop` issues its removal blocks over exactly the reversed
(descending order-index) sequence; the sorted sequence is sorted by
order index, is a permutation of the declared descriptors, and breaks
ties by declaration order (filtering at any fixed order index preserves
declaration order); in particular, for the group with A(order=1),
B(order=2), C(order=3), `start` issues `create_window` calls in the
sequence A, B, C and `stop` issues removal actions in the sequence
C, B, A. -/
theorem start_ascending_stop_descending (g : Group)
    (windows0 windowsAll : List String) (vanish : String → Nat → Bool) (bound : Nat)
    (hnd : (g.procs.map (fun p => p.name)).Nodup)
    (hfresh : ∀ p ∈ g.procs, p.name ∉ windows0)
    (hrun : ∀ p ∈ g.procs, p.name ∈ windowsAll) :
    (start g none windows0 noFail).trace
      = traceOf (startBlock g.name) (sortByOrder g.procs)
    ∧ (stop g none windowsAll noFail vanish bound).trace
      = traceOf (stopBlock vanish bound g.name) ((sortByOrder g.procs).reverse)
    ∧ List.Sorted procLE (sortByOrder g.procs)
    ∧ (sortByOrder g.procs).Perm g.procs
    ∧ (∀ k, (sortByOrder g.procs).filter (fun p => p.order == k)
        = g.procs.filter (fun p => p.order == k))
    ∧ (start webGroup none [] noFail).trace
      = [Action.ensureSession "web", Action.createWindow "web" "A" "cmd-a",
         Action.ensureSession "web", Action.createWindow "web" "B" "cmd-b",
         Action.ensureSession "web", Action.createWindow "web" "C" "cmd-c"]
    ∧ (stop webGroup none ["A", "B", "C"] noFail neverVanish 0).trace
      = [Action.sendSignal "web" "C" "TERM", Action.killWindow "web" "C",
         Action.killWindow "web" "B", Action.killWindow "web" "A"] := by
  have hperm := sortByOrder_perm g.procs
  have hnds : ((sortByOrder g.procs).map (fun p => p.name)).Nodup :=
    ((hperm.map (fun p => p.name)).nodup_iff).2 hnd
  have hfreshs : ∀ p ∈ sortByOrder g.procs, p.name ∉ windows0 :=
    fun p hp => hfresh p (hperm.mem_iff.1 hp)
  have hndr : (((sortByOrder g.procs).reverse).map (fun p => p.name)).Nodup := by
    simpa [List.map_reverse, List.nodup_reverse] using hnds
  have hrunr : ∀ p ∈ (sortByOrder g.procs).reverse, p.name ∈ windowsAll := by
    intro p hp
    exact hrun p (hperm.mem_iff.1 (List.mem_reverse.1 hp))
  refine ⟨?_, ?_, sortByOrder_sorted g.procs, hperm, sortByOrder_stable g.procs,
    by decide, by decide⟩
  · have key := startRun_fresh_trace g.name (sortByOrder g.procs) (initState windows0)
      rfl hnds hfreshs
    simpa [start, startRun, startTargets, initState] using key
  · have key := stopRun_fresh_trace vanish bound g.name ((sortByOrder g.procs).reverse)
      (initStopState windowsAll) rfl hndr hrunr
    simpa [stop, stopRun, stopTargets, startTargets, initStopState] using key

/-- Witness for C1: for A(order=1), B(order=2), C(order=3), `start`
issues the blocks for A, B, C in that order and `stop` issues removal
blocks for C, B, A. -/
theorem start_ascending_stop_descending_witness :
    ((webGroup.procs.map (fun p => p.name)).Nodup
      ∧ (∀ p ∈ webGroup.procs, p.name ∉ ([] : List String))
      ∧ (∀ p ∈ webGroup.procs, p.name ∈ ["A", "B", "C"]))
    ∧ ((start webGroup none [] noFail).trace
        = traceOf (startBlock "web") (sortByOrder webGroup.procs)
      ∧ (stop webGroup none ["A", "B", "C"] noFail neverVanish 2).trace
        = traceOf (stopBlock neverVanish 2 "web") ((sortByOrder webGroup.procs).reverse)
      ∧ List.Sorted procLE (sortByOrder webGroup.procs)
      ∧ (sortByOrder webGroup.procs).Perm webGroup.procs
      ∧ (∀ k, (sortByOrder webGroup.procs).filter (fun p => p.order == k)
          = webGroup.procs.filter (fun p => p.order == k))
      ∧ (start webGroup none [] noFail).trace
        = [Action.ensureSession "web", Action.createWindow "web" "A" "cmd-a",
           Action.ensureSession "web", Action.createWindow "web" "B" "cmd-b",
           Action.ensureSession "web", Action.createWindow "web" "C" "cmd-c"]
      ∧ (stop webGroup none ["A", "B", "C"] noFail neverVanish 0).trace
        = [Action.sendSignal "web" "C" "TERM", Action.killWindow "web" "C",
           Action.killWindow "web" "B", Action.killWindow "web" "A"]) :=
  ⟨⟨by decide, by decide, by decide⟩,
   start_ascending_stop_descending webGroup [] ["A", "B", "C"] neverVanish 2
     (by decide) (by decide) (by decide)⟩

end Pgm
